import Mathlib

/-!
Verification of the front_manage login front-end.

This file gives a shallow embedding of the repository's core logic:

* `ErrorParserService.extractMessage`
  (src/app/shared/services/error-parser.service.ts) — modelled by
  `extractMessage` over a JavaScript value domain `JsVal`, with the
  internal exception behaviour (property access on `null`/`undefined`
  throws, `JSON.parse` failures) made explicit via `Except`/`Option`.
* `LoginComponent.submit` — modelled by `submit` (the variant that uses
  the error parser) and `submitAlt` (the variant that formats the error
  inline), as one-step transitions on the component state, counting the
  authentication calls they issue.
* `AuthService.login` (src/app/services/auth.service.ts) — modelled by
  `loginModel` over an abstract HTTP response and the `auth_token`
  storage slot.

`JSON.parse` is modelled by `jsonParseVal`, a total fuel-indexed parser
of the JSON grammar (whitespace, strings with escapes, numbers, the
three literals, arrays, objects).  Numeric values keep the sign and the
integer part of the literal; the fraction and exponent are consumed for
grammar validity only (no claim below depends on a non-integer numeric
value).  Duplicate object keys follow JavaScript: the last binding wins.
-/

/-- A JavaScript runtime value, as far as the error parser can observe it. -/
inductive JsVal where
  | vStr (s : String)
  | vNum (n : Int)
  | vBool (b : Bool)
  | vNull
  | vUndefined
  | vArr (xs : List JsVal)
  | vObj (fields : List (String × JsVal))

/-- `typeof v === 'string'`. -/
def isStr : JsVal → Bool
  | JsVal.vStr _ => true
  | _ => false

/-- JavaScript truthiness: `""`, `0`, `false`, `null`, `undefined` are falsy;
every other value (objects and arrays included) is truthy. -/
def truthy : JsVal → Bool
  | JsVal.vStr s => if s = "" then false else true
  | JsVal.vNum n => if n = 0 then false else true
  | JsVal.vBool b => b
  | JsVal.vNull => false
  | JsVal.vUndefined => false
  | JsVal.vArr _ => true
  | JsVal.vObj _ => true

/-- Last binding of a key in an object's field list (JavaScript: a later
assignment of the same property overwrites the earlier one). -/
def lookupLast (fields : List (String × JsVal)) (k : String) : Option JsVal :=
  fields.foldl (fun acc p => if p.1 = k then some p.2 else acc) none

/-- Property read `v.k` on a value that is NOT `null`/`undefined`: a named
field of an object, `undefined` for a missing field and on every
non-object value (none of the fields the code reads is an array or
string built-in). -/
def getField (v : JsVal) (k : String) : JsVal :=
  match v with
  | JsVal.vObj fields =>
    match lookupLast fields k with
    | some r => r
    | none => JsVal.vUndefined
  | _ => JsVal.vUndefined

/-- Plain property read `v.k`: throws a `TypeError` when `v` is `null` or
`undefined`, otherwise reads the field. -/
def getFieldE (v : JsVal) (k : String) : Except Unit JsVal :=
  match v with
  | JsVal.vNull => Except.error ()
  | JsVal.vUndefined => Except.error ()
  | _ => Except.ok (getField v k)

/-- Optional-chain read `v?.k`: `undefined` when `v` is `null`/`undefined`,
otherwise an ordinary property read.  Never throws. -/
def optField (v : JsVal) (k : String) : JsVal :=
  match v with
  | JsVal.vNull => JsVal.vUndefined
  | JsVal.vUndefined => JsVal.vUndefined
  | _ => getField v k

mutual

/-- JavaScript string coercion `String(v)` (also the semantics of a template
literal placeholder): strings unchanged, `"null"`/`"undefined"` for the two
unit values, decimal for numbers, `"[object Object]"` for plain objects and
`Array.prototype.toString` (comma-joined elements, `null`/`undefined`
elements rendered empty) for arrays. -/
def jsToString : JsVal → String
  | JsVal.vStr s => s
  | JsVal.vNum n => toString n
  | JsVal.vBool b => if b then "true" else "false"
  | JsVal.vNull => "null"
  | JsVal.vUndefined => "undefined"
  | JsVal.vArr xs => jsListToString xs
  | JsVal.vObj _ => "[object Object]"

/-- Comma-joined rendering of an array's elements. -/
def jsListToString : List JsVal → String
  | [] => ""
  | [x] => jsElemToString x
  | x :: y :: xs => jsElemToString x ++ "," ++ jsListToString (y :: xs)

/-- One array element inside `Array.prototype.toString`: `null` and
`undefined` render as the empty string, everything else as `String(v)`. -/
def jsElemToString : JsVal → String
  | JsVal.vNull => ""
  | JsVal.vUndefined => ""
  | v => jsToString v

end

theorem jsToString_vStr (s : String) : jsToString (JsVal.vStr s) = s := by
  simp [jsToString]

theorem jsToString_vObj (fs : List (String × JsVal)) :
    jsToString (JsVal.vObj fs) = "[object Object]" := by
  simp [jsToString]

theorem jsToString_vUndefined : jsToString JsVal.vUndefined = "undefined" := by
  simp [jsToString]

theorem jsToString_vNull : jsToString JsVal.vNull = "null" := by
  simp [jsToString]

example : jsToString (JsVal.vArr [JsVal.vNum 1, JsVal.vNull, JsVal.vStr "a"]) = "1,,a" := by
  simp [jsToString, jsListToString, jsElemToString]
  rfl

/-! ### A model of `JSON.parse`

Total, fuel-indexed.  `jsonParseVal s = some v` means `JSON.parse(s)`
succeeds with value `v`; `none` means it throws a `SyntaxError`. -/

/-- JSON insignificant whitespace. -/
def isJsonWs (c : Char) : Bool :=
  c = ' ' || c = Char.ofNat 9 || c = Char.ofNat 10 || c = Char.ofNat 13

/-- Drop leading JSON whitespace. -/
def skipJsonWs : List Char → List Char
  | [] => []
  | c :: cs => if isJsonWs c then skipJsonWs cs else c :: cs

/-- Value of a hexadecimal digit, `none` for a non-digit. -/
def hexDigit (c : Char) : Option Nat :=
  if '0' ≤ c ∧ c ≤ '9' then some (c.toNat - 48)
  else if 'a' ≤ c ∧ c ≤ 'f' then some (c.toNat - 87)
  else if 'A' ≤ c ∧ c ≤ 'F' then some (c.toNat - 55)
  else none

/-- Scan the body of a JSON string after the opening quote, decoding the
escapes of RFC 8259; raw control characters are rejected.  Returns the
decoded string and the input after the closing quote. -/
def scanStringBody : List Char → String → Option (String × List Char)
  | [], _ => none
  | c :: cs, acc =>
    if c = '"' then some (acc, cs)
    else if c = '\\' then
      match cs with
      | [] => none
      | e :: cs2 =>
        if e = '"' then scanStringBody cs2 (acc.push '"')
        else if e = '\\' then scanStringBody cs2 (acc.push '\\')
        else if e = '/' then scanStringBody cs2 (acc.push '/')
        else if e = 'b' then scanStringBody cs2 (acc.push (Char.ofNat 8))
        else if e = 'f' then scanStringBody cs2 (acc.push (Char.ofNat 12))
        else if e = 'n' then scanStringBody cs2 (acc.push (Char.ofNat 10))
        else if e = 'r' then scanStringBody cs2 (acc.push (Char.ofNat 13))
        else if e = 't' then scanStringBody cs2 (acc.push (Char.ofNat 9))
        else if e = 'u' then
          match cs2 with
          | h1 :: h2 :: h3 :: h4 :: cs3 =>
            (match hexDigit h1, hexDigit h2, hexDigit h3, hexDigit h4 with
             | some a, some b, some c2, some d =>
               scanStringBody cs3 (acc.push (Char.ofNat (((a * 16 + b) * 16 + c2) * 16 + d)))
             | _, _, _, _ => none)
          | _ => none
        else none
    else if c.toNat < 32 then none
    else scanStringBody cs (acc.push c)

/-- Longest prefix of decimal digits, and the rest of the input. -/
def scanDigits : List Char → List Char × List Char
  | [] => ([], [])
  | c :: cs =>
    if '0' ≤ c ∧ c ≤ '9' then
      let p := scanDigits cs
      (c :: p.1, p.2)
    else ([], c :: cs)

/-- Decimal value of a digit list. -/
def digitsVal (ds : List Char) : Nat :=
  ds.foldl (fun acc c => acc * 10 + (c.toNat - 48)) 0

/-- Scan a JSON number (`-? (0 | [1-9][0-9]*) frac? exp?`), rejecting what
the grammar rejects (leading zeros, a bare minus, an empty fraction or
exponent).  The value kept is the signed integer part. -/
def scanNumber (cs : List Char) : Option (Int × List Char) :=
  let sign : Bool × List Char :=
    match cs with
    | c :: rest => if c = '-' then (true, rest) else (false, cs)
    | [] => (false, cs)
  match scanDigits sign.2 with
  | ([], _) => none
  | (ds, rest) =>
    if 1 < ds.length ∧ ds.head? = some '0' then none
    else
      let ipart : Int := if sign.1 then -(Int.ofNat (digitsVal ds)) else Int.ofNat (digitsVal ds)
      let afterFrac : Option (List Char) :=
        match rest with
        | c :: r2 =>
          if c = '.' then
            match scanDigits r2 with
            | ([], _) => none
            | (_, r3) => some r3
          else some rest
        | [] => some rest
      match afterFrac with
      | none => none
      | some r3 =>
        match r3 with
        | c :: r4 =>
          if c = 'e' ∨ c = 'E' then
            let r5 : List Char :=
              match r4 with
              | s :: r6 => if s = '+' ∨ s = '-' then r6 else r4
              | [] => r4
            match scanDigits r5 with
            | ([], _) => none
            | (_, r6) => some (ipart, r6)
          else some (ipart, r3)
        | [] => some (ipart, r3)

/-- Parser mode: a value, the inside of an array, or the inside of an
object (after the opening bracket, or after an element and before the
separator), with what has been accumulated so far. -/
inductive PMode where
  | value
  | arrStart
  | arrSep (acc : List JsVal)
  | objStart
  | objMember (acc : List (String × JsVal))
  | objSep (acc : List (String × JsVal))

/-- One fuel-indexed parsing engine for the whole JSON grammar. -/
def parseStep : Nat → PMode → List Char → Option (JsVal × List Char)
  | 0, _, _ => none
  | Nat.succ fuel, PMode.value, cs =>
    (match skipJsonWs cs with
     | [] => none
     | c :: rest =>
       if c = '"' then
         match scanStringBody rest "" with
         | some (s, r) => some (JsVal.vStr s, r)
         | none => none
       else if c = Char.ofNat 123 then parseStep fuel PMode.objStart rest
       else if c = '[' then parseStep fuel PMode.arrStart rest
       else
         match c :: rest with
         | 't' :: 'r' :: 'u' :: 'e' :: r => some (JsVal.vBool true, r)
         | 'f' :: 'a' :: 'l' :: 's' :: 'e' :: r => some (JsVal.vBool false, r)
         | 'n' :: 'u' :: 'l' :: 'l' :: r => some (JsVal.vNull, r)
         | cs2 =>
           match scanNumber cs2 with
           | some (n, r) => some (JsVal.vNum n, r)
           | none => none)
  | Nat.succ fuel, PMode.arrStart, cs =>
    (match skipJsonWs cs with
     | [] => none
     | c :: rest =>
       if c = ']' then some (JsVal.vArr [], rest)
       else
         match parseStep fuel PMode.value (c :: rest) with
         | some (v, r) => parseStep fuel (PMode.arrSep [v]) r
         | none => none)
  | Nat.succ fuel, PMode.arrSep acc, cs =>
    (match skipJsonWs cs with
     | [] => none
     | c :: rest =>
       if c = ']' then some (JsVal.vArr acc, rest)
       else if c = ',' then
         match parseStep fuel PMode.value rest with
         | some (v, r) => parseStep fuel (PMode.arrSep (acc ++ [v])) r
         | none => none
       else none)
  | Nat.succ fuel, PMode.objStart, cs =>
    (match skipJsonWs cs with
     | [] => none
     | c :: rest =>
       if c = Char.ofNat 125 then some (JsVal.vObj [], rest)
       else parseStep fuel (PMode.objMember []) (c :: rest))
  | Nat.succ fuel, PMode.objMember acc, cs =>
    (match skipJsonWs cs with
     | [] => none
     | c :: rest =>
       if c = '"' then
         match scanStringBody rest "" with
         | some (k, r) =>
           (match skipJsonWs r with
            | c2 :: r2 =>
              if c2 = ':' then
                match parseStep fuel PMode.value r2 with
                | some (v, r3) => parseStep fuel (PMode.objSep (acc ++ [(k, v)])) r3
                | none => none
              else none
            | [] => none)
         | none => none
       else none)
  | Nat.succ fuel, PMode.objSep acc, cs =>
    (match skipJsonWs cs with
     | [] => none
     | c :: rest =>
       if c = Char.ofNat 125 then some (JsVal.vObj acc, rest)
       else if c = ',' then parseStep fuel (PMode.objMember acc) rest
       else none)

/-- `JSON.parse`: one complete JSON value, surrounded only by whitespace.
`none` models the thrown `SyntaxError`. -/
def jsonParseVal (s : String) : Option JsVal :=
  match parseStep (s.length * 4 + 16) PMode.value s.data with
  | some (v, rest) => if skipJsonWs rest = [] then some v else none
  | none => none

example : jsonParseVal "Email inválido" = none := by rfl
example : jsonParseVal "" = none := by rfl
example : jsonParseVal "5" = some (JsVal.vNum 5) := by rfl
example : jsonParseVal " \x7b\"message\": \"Email inválido\"\x7d " =
    some (JsVal.vObj [("message", JsVal.vStr "Email inválido")]) := by rfl
example : jsonParseVal "[1, true, null, \"x\"]" =
    some (JsVal.vArr [JsVal.vNum 1, JsVal.vBool true, JsVal.vNull, JsVal.vStr "x"]) := by rfl
example : jsonParseVal "\x7b\"a\":\x7b\"b\":[-2.5e3]\x7d\x7d" =
    some (JsVal.vObj [("a", JsVal.vObj [("b", JsVal.vArr [JsVal.vNum (-2)])])]) := by rfl
example : jsonParseVal "\x7b" = none := by rfl
example : jsonParseVal "01" = none := by rfl

/-! ### `ErrorParserService.extractMessage`

Shallow embedding of the method body.  Steps 1–3 of the source (detect a
JSON string, detect a JSON string nested in `error.message`, or use the
input directly) either return early with a string or produce the working
object; steps 4–7 run on the working object and may throw (`firstError.field`
on a `null`/`undefined` first element), which the method's outer `catch`
turns into `typeof error === 'string' ? error : String(error)`. -/

/-- Outcome of steps 1–3: an early `return` of a string, or the working
object `errorObj`. -/
inductive StepResult where
  | ret (s : String)
  | obj (w : JsVal)

/-- Steps 1–3 of `extractMessage`.

* a string input is `JSON.parse`d; on failure the string itself is returned;
* else, when `error?.message && typeof error.message === 'string'` (a
  truthy — hence non-empty — string), that string is `JSON.parse`d; on
  failure it is returned as-is;
* else the input itself is the working object.

No operation here can throw: the two `JSON.parse` failures are handled by
the source's inner `try`/`catch`es. -/
def toWorkingObj (error : JsVal) : StepResult :=
  match error with
  | JsVal.vStr s =>
    (match jsonParseVal s with
     | some w => StepResult.obj w
     | none => StepResult.ret s)
  | _ =>
    match optField error "message" with
    | JsVal.vStr ms =>
      if ms = "" then StepResult.obj error
      else
        match jsonParseVal ms with
        | some w => StepResult.obj w
        | none => StepResult.ret ms
    | _ => StepResult.obj error

/-- Source guard of step 4: `errorObj?.errors && Array.isArray(errorObj.errors)
&& errorObj.errors.length > 0`.  An array is always truthy, so the guard
holds exactly when the `errors` field is an array with at least one
element. -/
def errorsGuard (w : JsVal) : Bool :=
  match optField w "errors" with
  | JsVal.vArr (_ :: _) => true
  | _ => false

/-- Source guard of step 5: `errorObj?.message && typeof errorObj.message ===
'string'`. -/
def msgGuard (w : JsVal) : Bool :=
  truthy (optField w "message") && isStr (optField w "message")

/-- Source guard of step 6: `errorObj?.error && typeof errorObj.error ===
'string'`. -/
def errGuard (w : JsVal) : Bool :=
  truthy (optField w "error") && isStr (optField w "error")

/-- Steps 4–7 of `extractMessage`, on the working object `errorObj`, with the
original input `error` kept for the step-7 fallback `String(error)`.

In the step-4 branch, `firstError.field` is a plain (not optional-chained)
property read and throws when the first element is `null`/`undefined`;
once it has succeeded, `firstError.message` cannot throw.  Note that
`return firstError.message` returns the raw field value, which need not
be a string. -/
def extractFromObj (errorObj : JsVal) (error : JsVal) : Except Unit JsVal :=
  match optField errorObj "errors" with
  | JsVal.vArr (firstError :: _) =>
    (match getFieldE firstError "field" with
     | Except.error e => Except.error e
     | Except.ok f =>
       let m := getField firstError "message"
       if truthy f && truthy m then
         Except.ok (JsVal.vStr (jsToString f ++ ": " ++ jsToString m))
       else if truthy m then
         Except.ok m
       else
         Except.ok (JsVal.vStr (jsToString firstError)))
  | _ =>
    if msgGuard errorObj then Except.ok (optField errorObj "message")
    else if errGuard errorObj then Except.ok (optField errorObj "error")
    else Except.ok (JsVal.vStr (jsToString error))

/-- The outer `catch` of `extractMessage`:
`return typeof error === 'string' ? error : String(error)`. -/
def catchFallback (error : JsVal) : JsVal :=
  if isStr error then error else JsVal.vStr (jsToString error)

/-- Steps 4–7 run under the outer `try`/`catch`. -/
def runFromObj (w : JsVal) (error : JsVal) : JsVal :=
  match extractFromObj w error with
  | Except.ok r => r
  | Except.error _ => catchFallback error

/-- `ErrorParserService.extractMessage`.  The TypeScript signature declares
`string`, but the runtime value returned can be any `JsVal` (see step 4's
`return firstError.message`), so the model returns `JsVal`. -/
def extractMessage (error : JsVal) : JsVal :=
  match toWorkingObj error with
  | StepResult.ret s => JsVal.vStr s
  | StepResult.obj w => runFromObj w error

-- The five documented input/output examples of the source's doc comment.
example : extractMessage (JsVal.vStr "Email já cadastrado") = JsVal.vStr "Email já cadastrado" := by rfl
example : extractMessage (JsVal.vStr "\x7b\"message\": \"Email inválido\"\x7d") =
    JsVal.vStr "Email inválido" := by rfl
example : extractMessage (JsVal.vObj [("message", JsVal.vStr "Senha fraca")]) =
    JsVal.vStr "Senha fraca" := by rfl
example : extractMessage
    (JsVal.vObj [("errors", JsVal.vArr [JsVal.vObj [("field", JsVal.vStr "email"),
      ("message", JsVal.vStr "Email inválido")]])]) = JsVal.vStr "email: Email inválido" := by
  have h : extractMessage
      (JsVal.vObj [("errors", JsVal.vArr [JsVal.vObj [("field", JsVal.vStr "email"),
        ("message", JsVal.vStr "Email inválido")]])])
      = JsVal.vStr (jsToString (JsVal.vStr "email") ++ ": " ++ jsToString (JsVal.vStr "Email inválido")) := rfl
  rw [h, jsToString_vStr, jsToString_vStr]
  rfl
example : extractMessage (JsVal.vObj [("error", JsVal.vStr "Servidor indisponível")]) =
    JsVal.vStr "Servidor indisponível" := by rfl

example : extractMessage JsVal.vUndefined = JsVal.vStr "undefined" := by
  have h : extractMessage JsVal.vUndefined = JsVal.vStr (jsToString JsVal.vUndefined) := rfl
  rw [h, jsToString_vUndefined]
example : extractMessage JsVal.vNull = JsVal.vStr (jsToString JsVal.vNull) := by rfl
example : extractMessage (JsVal.vObj [("message", JsVal.vStr "\x7b\"error\":\"Email inválido\"\x7d")]) =
    JsVal.vStr "Email inválido" := by rfl

/-! ### `LoginComponent.submit`

One submit is a single state transition: the guard (`if (this.form.invalid)
return`), the flag writes, one awaited `auth.login` call whose outcome is
given as a parameter, and the success/error continuation.  The transition
also reports how many authentication calls it issued, which is what the
concurrency claim is about. -/

/-- The component state touched by `submit`: the form's validity and the
`loading` / `error` / `success` fields. -/
structure LoginState where
  formValid : Bool
  loading : Bool
  error : Option JsVal
  success : Bool

/-- Outcome of the awaited `auth.login` promise: fulfilled, or rejected
with the thrown value. -/
inductive LoginOutcome where
  | resolved
  | rejected (err : JsVal)

/-- `LoginComponent.submit` (the variant injecting `ErrorParserService`):
`if (this.form.invalid) return;` then `loading = true; error = null;`,
one `await this.auth.login(...)`; on success `success = true; loading =
false`; on failure `error = errorParser.extractMessage(err); loading =
false`.  The second component counts the `auth.login` calls issued. -/
def submit (s : LoginState) (o : LoginOutcome) : LoginState × Nat :=
  if !s.formValid then (s, 0)
  else
    let s1 : LoginState := { s with loading := true, error := none }
    match o with
    | LoginOutcome.resolved =>
      ({ s1 with success := true, loading := false }, 1)
    | LoginOutcome.rejected err =>
      ({ s1 with error := some (extractMessage err), loading := false }, 1)

/-- The other `LoginComponent.submit` variant in the repository: same guard
and flags, error formatted inline as `err?.message || String(err)`, and
`loading` reset in a `finally`. -/
def submitAlt (s : LoginState) (o : LoginOutcome) : LoginState × Nat :=
  if !s.formValid then (s, 0)
  else
    let s1 : LoginState := { s with loading := true, error := none }
    match o with
    | LoginOutcome.resolved =>
      ({ s1 with loading := false }, 1)
    | LoginOutcome.rejected err =>
      ({ s1 with
          error := some (if truthy (optField err "message")
                         then optField err "message"
                         else JsVal.vStr (jsToString err)),
          loading := false }, 1)

/-! ### `AuthService.login`

The `fetch` response is abstracted to its `ok` flag, its status and its
body text; `resp.json()` is `JSON.parse` of the body.  The `auth_token`
local-storage slot is the `Option String` threaded through; `setItem`
stores the string coercion of the value.  `Except.error` is a thrown
exception (the explicit `throw new Error(...)` on a non-2xx status, or
the `SyntaxError` rejection of `resp.json()`). -/

/-- What `AuthService.login` observes of the HTTP response. -/
structure HttpResp where
  ok : Bool
  status : Nat
  bodyText : String

/-- `AuthService.login`: on `!resp.ok` throw `new Error(text || 'Login
failed: ' + status)`; otherwise parse the body, store `data.token` under
`auth_token` when it is truthy, and return the parsed body.  Result: the
new storage slot and the returned body. -/
def loginModel (resp : HttpResp) (store : Option String) :
    Except String (Option String × JsVal) :=
  if !resp.ok then
    Except.error (if resp.bodyText = "" then "Login failed: " ++ toString resp.status
                  else resp.bodyText)
  else
    match jsonParseVal resp.bodyText with
    | none => Except.error "SyntaxError"
    | some data =>
      if truthy (optField data "token") then
        Except.ok (some (jsToString (optField data "token")), data)
      else
        Except.ok (store, data)

/-! ### Helper lemmas shared by the claim theorems -/

/-- A string input that `JSON.parse` rejects is returned unchanged. -/
theorem extractMessage_str_of_notJson (s : String) (h : jsonParseVal s = none) :
    extractMessage (JsVal.vStr s) = JsVal.vStr s := by
  simp [extractMessage, toWorkingObj, h]

/-- When steps 1–3 produce a working object, `extractMessage` is steps 4–7
under the outer catch. -/
theorem extractMessage_of_obj (v w : JsVal) (h : toWorkingObj v = StepResult.obj w) :
    extractMessage v = runFromObj w v := by
  simp [extractMessage, h]

/-- With no non-empty `errors` array, steps 4–7 are the `message` /
`error` / fallback chain, and nothing can throw. -/
theorem extractFromObj_no_errors (w v : JsVal) (h : errorsGuard w = false) :
    extractFromObj w v =
      (if msgGuard w then Except.ok (optField w "message")
       else if errGuard w then Except.ok (optField w "error")
       else Except.ok (JsVal.vStr (jsToString v))) := by
  unfold extractFromObj
  unfold errorsGuard at h
  rcases hE : optField w "errors" with _ | _ | _ | _ | _ | xs | _ <;>
    simp [hE] at h ⊢
  rcases xs with _ | ⟨x, xs⟩
  · rfl
  · simp at h

/-- A non-`null`, non-`undefined` value's plain property read never throws. -/
theorem getFieldE_of_getField_str (f : JsVal) (k : String) (a : String)
    (h : getField f k = JsVal.vStr a) : getFieldE f k = Except.ok (JsVal.vStr a) := by
  cases f with
  | vStr s => simp [getField] at h
  | vNum n => simp [getField] at h
  | vBool b => simp [getField] at h
  | vNull => simp [getField] at h
  | vUndefined => simp [getField] at h
  | vArr xs => simp [getField] at h
  | vObj fs => simp [getFieldE, h]

/-! ### The claims -/

/-- Claim C1.  The claim says `extractMessage` returns a string for every
input and never raises.  The never-raises half holds (every internal throw
is caught), but the returns-a-string half is contradicted by the code at
`\x7berrors: [\x7bmessage: 5\x7d]\x7d`: step 4's `return firstError.message`
returns the raw field value, here the number `5`, although the signature
declares `string` and the final comment promises "SEMPRE retornamos uma
string".  This theorem evaluates the model at that failing input. -/
theorem claim1_failing_input :
    extractMessage (JsVal.vObj [("errors", JsVal.vArr [JsVal.vObj [("message", JsVal.vNum 5)]])])
      = JsVal.vNum 5
    ∧ isStr (JsVal.vNum 5) = false :=
  ⟨rfl, rfl⟩

/-- Claim C3.  A string input that is not valid JSON is returned
unchanged. -/
theorem claim3_nonjson_string_unchanged (s : String) (h : jsonParseVal s = none) :
    extractMessage (JsVal.vStr s) = JsVal.vStr s :=
  extractMessage_str_of_notJson s h

/-- Witness for C3 at the concrete non-JSON string "Email já cadastrado". -/
theorem claim3_witness :
    extractMessage (JsVal.vStr "Email já cadastrado") = JsVal.vStr "Email já cadastrado" :=
  claim3_nonjson_string_unchanged "Email já cadastrado" rfl

/-- Claim C8.  Whenever the output is a string that is not valid JSON,
feeding it back returns it unchanged: `extractMessage` is idempotent on
such outputs. -/
theorem claim8_idempotent_on_output (x : JsVal) (s : String)
    (h1 : extractMessage x = JsVal.vStr s) (h2 : jsonParseVal s = none) :
    extractMessage (extractMessage x) = extractMessage x := by
  rw [h1]
  exact extractMessage_str_of_notJson s h2

/-- Witness for C8 at the plain-string input "Email inválido". -/
theorem claim8_witness :
    extractMessage (extractMessage (JsVal.vStr "Email inválido"))
      = extractMessage (JsVal.vStr "Email inválido") :=
  claim8_idempotent_on_output (JsVal.vStr "Email inválido") "Email inválido" rfl rfl

/-- Claim C7.  When the working object exists and none of the extraction
shapes matches — no non-empty `errors` array, no string-typed `message`,
no string-typed `error` — the result is the string coercion of the entire
original input. -/
theorem claim7_fallback_coercion (v w : JsVal)
    (hw : toWorkingObj v = StepResult.obj w)
    (hne : errorsGuard w = false)
    (hnm : isStr (optField w "message") = false)
    (hnr : isStr (optField w "error") = false) :
    extractMessage v = JsVal.vStr (jsToString v) := by
  rw [extractMessage_of_obj v w hw]
  unfold runFromObj
  rw [extractFromObj_no_errors w v hne]
  have hmg : msgGuard w = false := by simp [msgGuard, hnm]
  have heg : errGuard w = false := by simp [errGuard, hnr]
  simp [hmg, heg]

/-- Witness for C7 at `undefined` and `null`, the claim's two concrete
examples. -/
theorem claim7_witness :
    extractMessage JsVal.vUndefined = JsVal.vStr "undefined"
    ∧ extractMessage JsVal.vNull = JsVal.vStr "null" := by
  constructor
  · have h := claim7_fallback_coercion JsVal.vUndefined JsVal.vUndefined rfl rfl rfl rfl
    rw [h, jsToString_vUndefined]
  · have h := claim7_fallback_coercion JsVal.vNull JsVal.vNull rfl rfl rfl rfl
    rw [h, jsToString_vNull]

/-- Claim C4.  A non-string input whose `message` field is a string
containing valid JSON has that string parsed, and the remaining steps
(4–7, under the outer catch) run with the parsed value as the working
object; in particular the double-encoded example decodes twice.  (The
validity of the JSON already forces the `message` string to be non-empty,
hence truthy.) -/
theorem claim4_nested_json_message :
    (∀ (v : JsVal) (m : String) (w : JsVal),
      isStr v = false →
      optField v "message" = JsVal.vStr m →
      jsonParseVal m = some w →
      extractMessage v = runFromObj w v)
    ∧ extractMessage (JsVal.vObj [("message", JsVal.vStr "\x7b\"error\":\"Email inválido\"\x7d")])
        = JsVal.vStr "Email inválido" := by
  constructor
  · intro v m w hs hm hp
    have hm' : ¬m = "" := by
      intro h
      rw [h] at hp
      rw [show jsonParseVal "" = none from rfl] at hp
      exact Option.noConfusion hp
    cases v with
    | vStr s => simp [isStr] at hs
    | vNull => simp [optField] at hm
    | vUndefined => simp [optField] at hm
    | vNum n => simp [extractMessage, toWorkingObj, hm, hm', hp]
    | vBool b => simp [extractMessage, toWorkingObj, hm, hm', hp]
    | vArr xs => simp [extractMessage, toWorkingObj, hm, hm', hp]
    | vObj fs => simp [extractMessage, toWorkingObj, hm, hm', hp]
  · rfl

/-- Witness for C4: the general part applied to a concrete double-encoded
payload. -/
theorem claim4_witness :
    extractMessage (JsVal.vObj [("message", JsVal.vStr "\x7b\"error\":\"Senha fraca\"\x7d")])
      = runFromObj (JsVal.vObj [("error", JsVal.vStr "Senha fraca")])
          (JsVal.vObj [("message", JsVal.vStr "\x7b\"error\":\"Senha fraca\"\x7d")]) :=
  claim4_nested_json_message.1 _ "\x7b\"error\":\"Senha fraca\"\x7d"
    (JsVal.vObj [("error", JsVal.vStr "Senha fraca")]) rfl rfl rfl

/-- Counterexample to Claim C5.  The claim includes the empty string
(`\x7bmessage: ""\x7d`), but `""` is falsy in JavaScript, so both `message`
guards fail and the code falls through to `String(error)`, returning
"[object Object]" instead of the claimed `""`. -/
theorem claim5_counterexample :
    extractMessage (JsVal.vObj [("message", JsVal.vStr "")]) = JsVal.vStr "[object Object]"
    ∧ JsVal.vStr "[object Object]" ≠ JsVal.vStr "" := by
  constructor
  · have h : extractMessage (JsVal.vObj [("message", JsVal.vStr "")])
        = JsVal.vStr (jsToString (JsVal.vObj [("message", JsVal.vStr "")])) := rfl
    rw [h, jsToString_vObj]
  · simp

/-- Claim C5 as amended: the `message` string is returned as-is whenever it
is non-empty (truthy); part one for the early `return error.message` when
the nested parse fails, part two for step 5 on the working object when no
non-empty `errors` array matched first. -/
theorem claim5_amended :
    (∀ (v : JsVal) (m : String),
      isStr v = false →
      optField v "message" = JsVal.vStr m →
      m ≠ "" →
      jsonParseVal m = none →
      extractMessage v = JsVal.vStr m)
    ∧ (∀ (v w : JsVal) (m : String),
      toWorkingObj v = StepResult.obj w →
      errorsGuard w = false →
      optField w "message" = JsVal.vStr m →
      m ≠ "" →
      extractMessage v = JsVal.vStr m) := by
  constructor
  · intro v m hs hm hm' hp
    cases v with
    | vStr s => simp [isStr] at hs
    | vNull => simp [optField] at hm
    | vUndefined => simp [optField] at hm
    | vNum n => simp [extractMessage, toWorkingObj, hm, hm', hp]
    | vBool b => simp [extractMessage, toWorkingObj, hm, hm', hp]
    | vArr xs => simp [extractMessage, toWorkingObj, hm, hm', hp]
    | vObj fs => simp [extractMessage, toWorkingObj, hm, hm', hp]
  · intro v w m hw hne hm hm'
    rw [extractMessage_of_obj v w hw]
    unfold runFromObj
    rw [extractFromObj_no_errors w v hne]
    have hmg : msgGuard w = true := by simp [msgGuard, hm, truthy, isStr, hm']
    simp [hmg, hm]

/-- Witness for C5 (amended), first part, at `\x7bmessage: "Senha
incorreta"\x7d`. -/
theorem claim5_witness :
    extractMessage (JsVal.vObj [("message", JsVal.vStr "Senha incorreta")])
      = JsVal.vStr "Senha incorreta" :=
  claim5_amended.1 _ "Senha incorreta" rfl rfl (by decide) rfl

/-- Counterexample to Claim C6.  `\x7berror: ""\x7d` has a string-typed
`error` field, but `""` is falsy, the guard fails, and the fallback
returns "[object Object]" instead of the claimed `""`. -/
theorem claim6_counterexample :
    extractMessage (JsVal.vObj [("error", JsVal.vStr "")]) = JsVal.vStr "[object Object]"
    ∧ JsVal.vStr "[object Object]" ≠ JsVal.vStr "" := by
  constructor
  · have h : extractMessage (JsVal.vObj [("error", JsVal.vStr "")])
        = JsVal.vStr (jsToString (JsVal.vObj [("error", JsVal.vStr "")])) := rfl
    rw [h, jsToString_vObj]
  · simp

/-- Claim C6 as amended: with no non-empty `errors` array and no truthy
string `message`, a NON-EMPTY string `error` field is returned; the
concrete example of the claim holds. -/
theorem claim6_amended :
    (∀ (v w : JsVal) (e : String),
      toWorkingObj v = StepResult.obj w →
      errorsGuard w = false →
      msgGuard w = false →
      optField w "error" = JsVal.vStr e →
      e ≠ "" →
      extractMessage v = JsVal.vStr e)
    ∧ extractMessage (JsVal.vObj [("error", JsVal.vStr "Servidor indisponível")])
        = JsVal.vStr "Servidor indisponível" := by
  constructor
  · intro v w e hw hne hnm he he'
    rw [extractMessage_of_obj v w hw]
    unfold runFromObj
    rw [extractFromObj_no_errors w v hne]
    have heg : errGuard w = true := by simp [errGuard, he, truthy, isStr, he']
    simp [hnm, heg, he]
  · rfl

/-- Witness for C6 (amended), first part, at `\x7berror: "Conta
desativada"\x7d`. -/
theorem claim6_witness :
    extractMessage (JsVal.vObj [("error", JsVal.vStr "Conta desativada")])
      = JsVal.vStr "Conta desativada" :=
  claim6_amended.1 _ _ "Conta desativada" rfl rfl rfl rfl (by decide)

/-- Counterexample to Claim C2.  The first element carries both `field` and
`message` string attributes (`field` is the empty string), yet the result
is not `"<field>: <message>"` (which would be ": Senha fraca"): the
truthiness guard on `field` fails and the bare `message` is returned. -/
theorem claim2_counterexample :
    extractMessage (JsVal.vObj [("errors", JsVal.vArr
        [JsVal.vObj [("field", JsVal.vStr ""), ("message", JsVal.vStr "Senha fraca")]])])
      = JsVal.vStr "Senha fraca"
    ∧ JsVal.vStr "Senha fraca" ≠ JsVal.vStr ("" ++ ": " ++ "Senha fraca") := by
  constructor
  · rfl
  · simp

/-- Claim C2 as amended: when the working object's `errors` field is a
non-empty array whose FIRST element has `field` and `message` attributes
that are both non-empty strings, the result is `"<field>: <message>"`;
the elements after the first (`rest`, arbitrary here) never influence the
result. -/
theorem claim2_amended (v w f : JsVal) (a b : String) (rest : List JsVal)
    (hw : toWorkingObj v = StepResult.obj w)
    (he : optField w "errors" = JsVal.vArr (f :: rest))
    (hf : getField f "field" = JsVal.vStr a) (ha : a ≠ "")
    (hm : getField f "message" = JsVal.vStr b) (hb : b ≠ "") :
    extractMessage v = JsVal.vStr (a ++ ": " ++ b) := by
  rw [extractMessage_of_obj v w hw]
  unfold runFromObj extractFromObj
  rw [he]
  simp [getFieldE_of_getField_str f "field" a hf, hm, truthy, ha, hb, jsToString_vStr]

/-- Witness for C2 (amended): two validation errors, only the first
surfaced. -/
theorem claim2_witness :
    extractMessage (JsVal.vObj [("errors", JsVal.vArr
        [JsVal.vObj [("field", JsVal.vStr "password"), ("message", JsVal.vStr "Senha fraca")],
         JsVal.vObj [("field", JsVal.vStr "email"), ("message", JsVal.vStr "Email inválido")]])])
      = JsVal.vStr ("password" ++ ": " ++ "Senha fraca") :=
  claim2_amended _ _ _ "password" "Senha fraca" _ rfl rfl rfl (by decide) rfl (by decide)

/-- Counterexample to Claim C9.  A state with the loading flag set and a
valid form: a further call to `submit` still issues an authentication
call (`submit` checks only `form.invalid`, never `loading`). -/
theorem claim9_counterexample :
    ({ formValid := true, loading := true, error := none, success := false } : LoginState).loading
      = true
    ∧ (submit { formValid := true, loading := true, error := none, success := false }
        LoginOutcome.resolved).2 = 1 :=
  ⟨rfl, rfl⟩

/-- Claim C9 as amended: both `submit` variants are gated on form validity
only — they issue exactly one authentication call when the form is valid
and none when it is invalid, regardless of the `loading` flag; so a
re-entrant call while a request is outstanding is NOT blocked in `submit`
itself (prevention is left to the template disabling the button). -/
theorem claim9_amended (s : LoginState) (o : LoginOutcome) :
    (submit s o).2 = (if s.formValid then 1 else 0)
    ∧ (submitAlt s o).2 = (if s.formValid then 1 else 0) := by
  cases o <;> by_cases h : s.formValid = true <;>
    simp [submit, submitAlt, h]

/-- Claim C10.  `AuthService.login` on a 2xx response: when the parsed body
has no truthy `token`, the call returns the parsed body without throwing
and leaves the `auth_token` slot exactly as it was; conversely, any run
that changes the slot had a truthy `token` in the returned body. -/
theorem claim10_token_frame :
    (∀ (resp : HttpResp) (store : Option String) (data : JsVal),
      resp.ok = true →
      jsonParseVal resp.bodyText = some data →
      truthy (optField data "token") = false →
      loginModel resp store = Except.ok (store, data))
    ∧ (∀ (resp : HttpResp) (store store2 : Option String) (data : JsVal),
      loginModel resp store = Except.ok (store2, data) →
      store2 ≠ store →
      truthy (optField data "token") = true) := by
  constructor
  · intro resp store data hok hparse htok
    simp [loginModel, hok, hparse, htok]
  · intro resp store store2 data h hne
    unfold loginModel at h
    cases hok : resp.ok with
    | false => rw [hok] at h; simp at h
    | true =>
      rw [hok] at h
      simp at h
      cases hparse : jsonParseVal resp.bodyText with
      | none => rw [hparse] at h; simp at h
      | some d =>
        rw [hparse] at h
        cases htok : truthy (optField d "token") with
        | false =>
          simp [htok] at h
          exact absurd h.1.symm hne
        | true =>
          simp [htok] at h
          obtain ⟨h1, h2⟩ := h
          subst h2
          exact htok

/-- Witness for C10: a 2xx response whose body has no `token` leaves the
stored value untouched and returns the parsed body. -/
theorem claim10_witness :
    loginModel { ok := true, status := 200, bodyText := "\x7b\"user\":\"x\"\x7d" } (some "old")
      = Except.ok (some "old", JsVal.vObj [("user", JsVal.vStr "x")]) :=
  claim10_token_frame.1 _ (some "old") (JsVal.vObj [("user", JsVal.vStr "x")]) rfl rfl rfl
